import Mathlib

/-!
Shallow embedding of the `vcell` crate (src/lib.rs): the `VolatileCell`
wrapper, the bit-manipulation-engine (BME) address transform and the
bit-banding address transform.  Machine integers (`u8`, `u32`, `usize`) are
modelled as `Nat`; a Rust `panic!` becomes `Except.error` with a constructor
identifying which check fired; a volatile write is modelled as the pair
(address written through, value written).
-/

namespace Vcell

/-- Identifies which check of the BME code path fired a fatal fault. -/
inductive BmeError where
  | bitCountOutOfRange (bit_count : Nat)
  | firstBitOutOfRange (first_bit : Nat)
  | addressNotSupported (addr : Nat)

/-- Mirrors enum BmeOperation (src/lib.rs lines 16-21); `setField` carries
`first_bit` and `bit_count` (`u8` values, modelled as `Nat`). -/
inductive BmeOperation where
  | and
  | or
  | xor
  | setField (first_bit : Nat) (bit_count : Nat)

/-- Mirrors BmeOperation::bits (src/lib.rs lines 25-42): the 32-bit operation
encoding; the two `panic!` branches become errors. -/
def BmeOperation.bits : BmeOperation → Except BmeError Nat
  | .and => .ok 0x04000000
  | .or => .ok 0x08000000
  | .xor => .ok 0x0c000000
  | .setField first_bit bit_count =>
    if bit_count = 0 ∨ bit_count > 16 then
      .error (.bitCountOutOfRange bit_count)
    else if first_bit > 31 then
      .error (.firstBitOutOfRange first_bit)
    else
      .ok (0x10000000 ||| ((first_bit &&& 0x1f) <<< 23) |||
        (((bit_count - 1) &&& 0xf) <<< 19))

/-- Address mask chosen by BmeOperation::wrap_pointer (the inline `match` at
src/lib.rs lines 46-49). -/
def BmeOperation.mask : BmeOperation → Nat
  | .setField _ _ => 0x6007ffff
  | _ => 0x600fffff

/-- Mirrors BmeOperation::wrap_pointer (src/lib.rs lines 44-54): the address
is checked against the mask first; only afterwards is `bits` evaluated
(which may itself fault), and the alias `addr ||| bits` returned. -/
def BmeOperation.wrap_pointer (op : BmeOperation) (addr : Nat) : Except BmeError Nat :=
  if addr &&& op.mask ≠ addr then
    .error (.addressNotSupported addr)
  else
    op.bits.map (fun b => addr ||| b)

/-- Identifies which check of the bit-banding code path fired a fatal fault. -/
inductive BbError where
  | addressOutsideBitband (addr : Nat)
  | bitOutOfRange (bit : Nat) (size : Nat)
  | valueOutOfRange (value : Nat)

/-- Mirrors VolatileCell::bitband_pointer (src/lib.rs lines 203-219).
`sizeT` is `core::mem::size_of::<T>()` and `addr` the cell's address viewed
as `u32`. -/
def bitband_pointer (sizeT addr bit_to_modify : Nat) : Except BbError Nat :=
  if addr < 0x20000000 ∨ (addr > 0x200fffff ∧ addr < 0x40000000) ∨ addr > 0x400fffff then
    .error (.addressOutsideBitband addr)
  else if bit_to_modify > sizeT * 8 then
    .error (.bitOutOfRange bit_to_modify sizeT)
  else
    let bb_offset := ((addr &&& 0xfffff) <<< 5) ||| ((bit_to_modify &&& 0x1f) <<< 2)
    .ok (((addr &&& 0xf0000000) ||| 0x02000000) ||| bb_offset)

/-- Mirrors VolatileCell::set_bit (src/lib.rs lines 228-238): the value
(already widened to `u32` by `Into`) must be 0 or 1, checked before the
alias is computed; the single volatile write is modelled as the returned
pair (alias address, value written). -/
def set_bit (sizeT addr bit_to_set value : Nat) : Except BbError (Nat × Nat) :=
  if value > 1 then
    .error (.valueOutOfRange value)
  else
    (bitband_pointer sizeT addr bit_to_set).map (fun p => (p, value))

/-- Mirrors VolatileCell::set_field (src/lib.rs lines 138-146): builds the
`setField` operation, wraps the cell's address `addr`, and performs one
volatile write of `value` through the alias, modelled as the returned pair. -/
def set_field (addr first_bit bit_count value : Nat) : Except BmeError (Nat × Nat) :=
  ((BmeOperation.setField first_bit bit_count).wrap_pointer addr).map (fun p => (p, value))

/-- Mirrors struct VolatileCell (src/lib.rs lines 96-130) with its stored
contents; the volatile get/set become state read / state replacement. -/
structure VolatileCell (T : Type) where
  value : T

/-- Mirrors VolatileCell::new. -/
def VolatileCell.new {T : Type} (value : T) : VolatileCell T := ⟨value⟩

/-- Mirrors VolatileCell::get: volatile read of the stored value. -/
def VolatileCell.get {T : Type} (c : VolatileCell T) : T := c.value

/-- Mirrors VolatileCell::set: volatile write replacing the stored value. -/
def VolatileCell.set {T : Type} (c : VolatileCell T) (value : T) : VolatileCell T :=
  { c with value := value }

/-- Data-model invariant on a BME operation (spec section 3): SET-FIELD
carries `first_bit` in [0,31] and `bit_count` in [1,16]. -/
def BmeOperation.valid : BmeOperation → Prop
  | .setField first_bit bit_count => first_bit ≤ 31 ∧ 1 ≤ bit_count ∧ bit_count ≤ 16
  | _ => True

theorem or_and_three (a b : Nat) (ha : a &&& 3 = 0) (hb : b &&& 3 = 0) :
    (a ||| b) &&& 3 = 0 := by
  rw [Nat.and_distrib_right, ha, hb]
  rfl

theorem shift_and_three (x n : Nat) (h : 2 ≤ n) : (x <<< n) &&& 3 = 0 := by
  have hmod : x <<< n &&& 3 = x <<< n % 4 := by
    have h4 := Nat.and_pow_two_sub_one_eq_mod (x <<< n) 2
    norm_num at h4
    exact h4
  rw [hmod, Nat.shiftLeft_eq]
  obtain ⟨k, hk⟩ : (4 : Nat) ∣ 2 ^ n := by
    calc (4 : Nat) = 2 ^ 2 := by norm_num
    _ ∣ 2 ^ n := Nat.pow_dvd_pow 2 h
  rw [hk, show x * (4 * k) = 4 * (x * k) by ring, Nat.mul_mod_right]

theorem bitband_alias_aligned (sizeT addr bit a : Nat)
    (h : bitband_pointer sizeT addr bit = Except.ok a) : a &&& 0x3 = 0 := by
  unfold bitband_pointer at h
  split at h
  · exact absurd h (by simp)
  split at h
  · exact absurd h (by simp)
  · have h30 : (0xf0000000 : Nat) &&& 3 = 0 := by decide
    have h02 : (0x02000000 : Nat) &&& 3 = 0 := by decide
    cases h
    apply or_and_three
    · apply or_and_three
      · rw [Nat.and_assoc, h30, Nat.and_zero]
      · exact h02
    · exact or_and_three _ _ (shift_and_three _ 5 (by omega)) (shift_and_three _ 2 (by omega))

theorem bits_isOk_of_valid (op : BmeOperation) (hop : op.valid) :
    ∃ enc, op.bits = Except.ok enc := by
  cases op with
  | setField fb bc =>
    have hop' : fb ≤ 31 ∧ 1 ≤ bc ∧ bc ≤ 16 := hop
    exact ⟨_, by simp only [BmeOperation.bits]; rw [if_neg (by omega), if_neg (by omega)]⟩
  | and => exact ⟨_, rfl⟩
  | or => exact ⟨_, rfl⟩
  | xor => exact ⟨_, rfl⟩

theorem setField_enc_and_mask (a b : Nat) (ha : a < 32) (hb : b < 16) :
    (0x10000000 ||| (a <<< 23) ||| (b <<< 19)) &&& 0x6007ffff = 0 := by
  have key : ∀ x, x < 32 → ∀ y, y < 16 →
      (0x10000000 ||| (x <<< 23) ||| (y <<< 19)) &&& 0x6007ffff = 0 := by decide
  exact key a ha b hb

theorem setField_enc_marker (a b : Nat) (ha : a < 32) (hb : b < 16) :
    (0x10000000 ||| (a <<< 23) ||| (b <<< 19)) &&& 0xf007ffff = 0x10000000 := by
  have key : ∀ x, x < 32 → ∀ y, y < 16 →
      (0x10000000 ||| (x <<< 23) ||| (y <<< 19)) &&& 0xf007ffff = 0x10000000 := by decide
  exact key a ha b hb

theorem bits_and_mask_eq_zero (op : BmeOperation) (hop : op.valid) (enc : Nat)
    (henc : op.bits = Except.ok enc) : enc &&& op.mask = 0 := by
  cases op with
  | setField fb bc =>
    have hop' : fb ≤ 31 ∧ 1 ≤ bc ∧ bc ≤ 16 := hop
    simp only [BmeOperation.bits] at henc
    rw [if_neg (by omega), if_neg (by omega)] at henc
    cases henc
    exact setField_enc_and_mask _ _
      (by have := @Nat.and_le_right fb 0x1f; omega)
      (by have := @Nat.and_le_right (bc - 1) 0xf; omega)
  | and => cases henc; decide
  | or => cases henc; decide
  | xor => cases henc; decide

/-- Claim C1: for every base address inside either bit-band window
(0x20000000-0x200FFFFF or 0x40000000-0x400FFFFF) and every bit index in
[0,31], the alias address computed by `bitband_pointer` is word-aligned,
i.e. alias &&& 0x3 = 0. -/
theorem bitband_alias_word_aligned (sizeT addr bit a : Nat)
    (_haddr : (0x20000000 ≤ addr ∧ addr ≤ 0x200fffff) ∨
      (0x40000000 ≤ addr ∧ addr ≤ 0x400fffff))
    (_hbit : bit ≤ 31)
    (h : bitband_pointer sizeT addr bit = Except.ok a) :
    a &&& 0x3 = 0 :=
  bitband_alias_aligned sizeT addr bit a h

theorem bitband_alias_word_aligned_witness : (0x22000014 : Nat) &&& 0x3 = 0 :=
  bitband_alias_word_aligned 4 0x20000000 5 0x22000014
    (Or.inl (by decide)) (by decide) (by rfl)

/-- Claim C2: for a BME operation satisfying the data-model invariant,
`wrap_pointer` faults exactly when the address fails that operation's mask
equation (mask 0x6007ffff for SET-FIELD, 0x600fffff for AND/OR/XOR), and
whenever the mask equation holds the returned alias is exactly
`addr ||| encoding` where `encoding` is the operation's 32-bit encoding. -/
theorem wrap_pointer_fault_iff_mask (op : BmeOperation) (addr : Nat) (hop : op.valid) :
    ((∃ e, op.wrap_pointer addr = Except.error e) ↔ addr &&& op.mask ≠ addr)
    ∧ (addr &&& op.mask = addr →
      ∃ enc, op.bits = Except.ok enc ∧ op.wrap_pointer addr = Except.ok (addr ||| enc)) := by
  obtain ⟨enc, henc⟩ := bits_isOk_of_valid op hop
  by_cases hm : addr &&& op.mask = addr
  · have hw : op.wrap_pointer addr = Except.ok (addr ||| enc) := by
      unfold BmeOperation.wrap_pointer
      rw [if_neg (not_not_intro hm), henc]
      rfl
    constructor
    · constructor
      · rintro ⟨e, he⟩
        rw [hw] at he
        exact Except.noConfusion he
      · intro hne
        exact absurd hm hne
    · intro _
      exact ⟨enc, henc, hw⟩
  · have hw : op.wrap_pointer addr = Except.error (.addressNotSupported addr) := by
      unfold BmeOperation.wrap_pointer
      rw [if_pos hm]
    constructor
    · constructor
      · intro _
        exact hm
      · intro _
        exact ⟨_, hw⟩
    · intro h
      exact absurd h hm

theorem wrap_pointer_fault_iff_mask_witness :
    ((∃ e, (BmeOperation.setField 3 4).wrap_pointer 0x20000000 = Except.error e) ↔
      0x20000000 &&& (BmeOperation.setField 3 4).mask ≠ 0x20000000)
    ∧ (0x20000000 &&& (BmeOperation.setField 3 4).mask = 0x20000000 →
      ∃ enc, (BmeOperation.setField 3 4).bits = Except.ok enc ∧
        (BmeOperation.setField 3 4).wrap_pointer 0x20000000 = Except.ok (0x20000000 ||| enc)) :=
  wrap_pointer_fault_iff_mask (BmeOperation.setField 3 4) 0x20000000
    ⟨by decide, by decide, by decide⟩

/-- Claim C3: for every first_bit in [0,31] and bit_count in [1,16], the
SET-FIELD encoding equals
0x10000000 ||| ((first_bit &&& 0x1f) <<< 23) ||| (((bit_count-1) &&& 0xf) <<< 19),
and that encoding masked with 0xf007ffff equals exactly 0x10000000. -/
theorem set_field_encoding (first_bit bit_count : Nat) (hfb : first_bit ≤ 31)
    (hbc1 : 1 ≤ bit_count) (hbc2 : bit_count ≤ 16) :
    (BmeOperation.setField first_bit bit_count).bits =
      Except.ok (0x10000000 ||| ((first_bit &&& 0x1f) <<< 23) |||
        (((bit_count - 1) &&& 0xf) <<< 19))
    ∧ (0x10000000 ||| ((first_bit &&& 0x1f) <<< 23) |||
        (((bit_count - 1) &&& 0xf) <<< 19)) &&& 0xf007ffff = 0x10000000 := by
  constructor
  · simp only [BmeOperation.bits]
    rw [if_neg (by omega), if_neg (by omega)]
  · exact setField_enc_marker _ _
      (by have := @Nat.and_le_right first_bit 0x1f; omega)
      (by have := @Nat.and_le_right (bit_count - 1) 0xf; omega)

theorem set_field_encoding_witness :
    (BmeOperation.setField 5 3).bits =
      Except.ok (0x10000000 ||| ((5 &&& 0x1f) <<< 23) ||| (((3 - 1) &&& 0xf) <<< 19))
    ∧ (0x10000000 ||| ((5 &&& 0x1f) <<< 23) |||
        (((3 - 1) &&& 0xf) <<< 19)) &&& 0xf007ffff = 0x10000000 :=
  set_field_encoding 5 3 (by decide) (by decide) (by decide)

/-- Claim C4: contrary to the spec, a bit index equal to the bit-width of
the target type does not fault: the check at src/lib.rs line 208 uses a
strict comparison, so on an 8-bit cell (size 1) bit index 8 passes the check
and an alias address 0x22000020 is produced instead of a fault. -/
theorem bitband_bit_eq_width_no_fault :
    bitband_pointer 1 0x20000000 8 = Except.ok 0x22000020 := by rfl

/-- Claim C5: `bitband_pointer` raises the address fault for every address
outside the two bit-band windows, and never raises the address fault for an
address inside [0x20000000, 0x200fffff] or [0x40000000, 0x400fffff]. -/
theorem bitband_address_check (sizeT addr bit : Nat) :
    ((addr < 0x20000000 ∨ (addr > 0x200fffff ∧ addr < 0x40000000) ∨ addr > 0x400fffff) →
      bitband_pointer sizeT addr bit = Except.error (.addressOutsideBitband addr))
    ∧ (((0x20000000 ≤ addr ∧ addr ≤ 0x200fffff) ∨
        (0x40000000 ≤ addr ∧ addr ≤ 0x400fffff)) →
      bitband_pointer sizeT addr bit ≠ Except.error (.addressOutsideBitband addr)) := by
  constructor
  · intro h
    unfold bitband_pointer
    rw [if_pos h]
  · intro h
    unfold bitband_pointer
    rw [if_neg (by omega)]
    split <;> simp

theorem bitband_address_check_witness :
    bitband_pointer 4 0x1fffffff 1 = Except.error (.addressOutsideBitband 0x1fffffff)
    ∧ bitband_pointer 4 0x20000000 1 ≠ Except.error (.addressOutsideBitband 0x20000000) :=
  ⟨(bitband_address_check 4 0x1fffffff 1).1 (by decide),
   (bitband_address_check 4 0x20000000 1).2 (Or.inl (by decide))⟩

/-- Claim C6: the SET-FIELD encoding computation faults for every bit_count
equal to 0 or greater than 16, faults for every first_bit greater than 31,
and succeeds for every bit_count in [1,16] with first_bit in [0,31]. -/
theorem set_field_bits_param_check (first_bit bit_count : Nat) :
    ((bit_count = 0 ∨ bit_count > 16) →
      (BmeOperation.setField first_bit bit_count).bits =
        Except.error (.bitCountOutOfRange bit_count))
    ∧ (31 < first_bit →
      ∃ e, (BmeOperation.setField first_bit bit_count).bits = Except.error e)
    ∧ ((1 ≤ bit_count ∧ bit_count ≤ 16 ∧ first_bit ≤ 31) →
      ∃ enc, (BmeOperation.setField first_bit bit_count).bits = Except.ok enc) := by
  refine ⟨?_, ?_, ?_⟩
  · intro h
    simp only [BmeOperation.bits]
    rw [if_pos h]
  · intro h
    by_cases h0 : bit_count = 0 ∨ bit_count > 16
    · exact ⟨_, by simp only [BmeOperation.bits]; rw [if_pos h0]⟩
    · exact ⟨_, by simp only [BmeOperation.bits]; rw [if_neg h0, if_pos h]⟩
  · rintro ⟨h1, h2, h3⟩
    exact ⟨_, by simp only [BmeOperation.bits]; rw [if_neg (by omega), if_neg (by omega)]⟩

theorem set_field_bits_param_check_witness :
    (BmeOperation.setField 0 0).bits = Except.error (.bitCountOutOfRange 0)
    ∧ (∃ e, (BmeOperation.setField 40 1).bits = Except.error e)
    ∧ (∃ enc, (BmeOperation.setField 5 3).bits = Except.ok enc) :=
  ⟨(set_field_bits_param_check 0 0).1 (Or.inl rfl),
   (set_field_bits_param_check 40 1).2.1 (by decide),
   (set_field_bits_param_check 5 3).2.2 ⟨by decide, by decide, by decide⟩⟩

/-- Claim C7 counterexample: with bit_count = 0 (outside [1,16]) and the
illegal base address 0x80000000, `set_field` raises the address fault, not
the parameter fault, because wrap_pointer validates the address before it
evaluates the operation's bits. -/
theorem set_field_fault_order_counterexample :
    set_field 0x80000000 0 0 77 = Except.error (.addressNotSupported 0x80000000) := by rfl

/-- Claim C7 (amended): for every base address satisfying the SET-FIELD
address mask and every parameter pair with bit_count outside [1,16] or
first_bit outside [0,31], `set_field` raises the bit-count or first-bit
parameter fault and computes no alias; for addresses failing the mask the
address fault is raised first. -/
theorem set_field_param_fault_on_masked_address (addr first_bit bit_count value : Nat)
    (haddr : addr &&& 0x6007ffff = addr)
    (hbad : bit_count = 0 ∨ 16 < bit_count ∨ 31 < first_bit) :
    ∃ e, set_field addr first_bit bit_count value = Except.error e ∧
      (e = BmeError.bitCountOutOfRange bit_count ∨ e = BmeError.firstBitOutOfRange first_bit) := by
  unfold set_field BmeOperation.wrap_pointer
  have hmask : (BmeOperation.setField first_bit bit_count).mask = 0x6007ffff := rfl
  rw [hmask, if_neg (not_not_intro haddr)]
  by_cases h0 : bit_count = 0 ∨ bit_count > 16
  · simp only [BmeOperation.bits]
    rw [if_pos h0]
    exact ⟨_, rfl, Or.inl rfl⟩
  · have hfb : 31 < first_bit := by omega
    simp only [BmeOperation.bits]
    rw [if_neg h0, if_pos hfb]
    exact ⟨_, rfl, Or.inr rfl⟩

theorem set_field_param_fault_witness :
    ∃ e, set_field 0x20000000 0 0 5 = Except.error e ∧
      (e = BmeError.bitCountOutOfRange 0 ∨ e = BmeError.firstBitOutOfRange 0) :=
  set_field_param_fault_on_masked_address 0x20000000 0 0 5 (by decide) (Or.inl rfl)

/-- Claim C8: `set_bit` faults for every value greater than 1, and for a
value of 0 or 1 on an in-window address and in-range bit index it performs
exactly one volatile write of that value (as a full 32-bit word) through the
computed bit-band alias address. -/
theorem set_bit_value_check (sizeT addr bit value : Nat) :
    (1 < value → set_bit sizeT addr bit value = Except.error (.valueOutOfRange value))
    ∧ (value ≤ 1 →
      ((0x20000000 ≤ addr ∧ addr ≤ 0x200fffff) ∨
        (0x40000000 ≤ addr ∧ addr ≤ 0x400fffff)) →
      bit < sizeT * 8 →
      set_bit sizeT addr bit value =
        Except.ok (((addr &&& 0xf0000000) ||| 0x02000000) |||
          (((addr &&& 0xfffff) <<< 5) ||| ((bit &&& 0x1f) <<< 2)), value)) := by
  constructor
  · intro h
    unfold set_bit
    rw [if_pos h]
  · intro hv haddr hbit
    unfold set_bit
    rw [if_neg (by omega)]
    unfold bitband_pointer
    rw [if_neg (by omega), if_neg (by omega)]
    rfl

theorem set_bit_value_check_witness :
    set_bit 4 0x40000000 0 2 = Except.error (.valueOutOfRange 2)
    ∧ set_bit 4 0x40000000 0 1 =
      Except.ok (((0x40000000 &&& 0xf0000000) ||| 0x02000000) |||
        (((0x40000000 &&& 0xfffff) <<< 5) ||| ((0 &&& 0x1f) <<< 2)), 1) :=
  ⟨(set_bit_value_check 4 0x40000000 0 2).1 (by decide),
   (set_bit_value_check 4 0x40000000 0 1).2 (by decide) (Or.inr (by decide)) (by decide)⟩

/-- Claim C9: setting a value into a VolatileCell and then getting returns
exactly the value written, for every value of the stored type. -/
theorem volatile_cell_set_get_roundtrip {T : Type} (c : VolatileCell T) (v : T) :
    (c.set v).get = v := rfl

/-- Claim C10: for a valid BME operation and addresses satisfying its mask
equation, the alias returned by wrap_pointer satisfies
alias &&& mask = addr (the target address is recoverable by masking), and
for a fixed operation the address-to-alias map is injective over valid
addresses. -/
theorem wrap_pointer_alias_recoverable (op : BmeOperation) (hop : op.valid)
    (addr addr' : Nat) (h : addr &&& op.mask = addr) (h' : addr' &&& op.mask = addr') :
    (∀ a, op.wrap_pointer addr = Except.ok a → a &&& op.mask = addr)
    ∧ (op.wrap_pointer addr = op.wrap_pointer addr' → addr = addr') := by
  obtain ⟨enc, henc⟩ := bits_isOk_of_valid op hop
  have hdisj := bits_and_mask_eq_zero op hop enc henc
  have hwrap : ∀ b, b &&& op.mask = b → op.wrap_pointer b = Except.ok (b ||| enc) := by
    intro b hb
    unfold BmeOperation.wrap_pointer
    rw [if_neg (not_not_intro hb), henc]
    rfl
  have hrec : ∀ b, b &&& op.mask = b → (b ||| enc) &&& op.mask = b := by
    intro b hb
    rw [Nat.and_distrib_right, hb, hdisj, Nat.or_zero]
  constructor
  · intro a ha
    rw [hwrap addr h] at ha
    cases ha
    exact hrec addr h
  · intro heq
    rw [hwrap addr h, hwrap addr' h'] at heq
    have heq' : addr ||| enc = addr' ||| enc := by injection heq
    have hm := congrArg (fun x => x &&& op.mask) heq'
    simp only at hm
    rw [hrec addr h, hrec addr' h'] at hm
    exact hm

theorem wrap_pointer_alias_recoverable_witness :
    (∀ a, BmeOperation.and.wrap_pointer 0x60000000 = Except.ok a →
      a &&& BmeOperation.and.mask = 0x60000000)
    ∧ (BmeOperation.and.wrap_pointer 0x60000000 = BmeOperation.and.wrap_pointer 0x600fffff →
      0x60000000 = 0x600fffff) :=
  wrap_pointer_alias_recoverable BmeOperation.and trivial 0x60000000 0x600fffff
    (by decide) (by decide)

end Vcell
